import Mathlib

/-!
# otelfiber-demo: request-tracing middleware

A shallow embedding of `pkg/fiber.go` (`Middleware`, `GetOtelSpanHeaders`,
`ExtraHeaders`, `defaultSpanNameFormatter`), `pkg/extraheaders.go` and the
propagator registration of `pkg/tracer.go`, together with the properties of
the tracing contract that are settled on it.

The Go standard library pieces the code relies on (`net/http.Header`,
`context.Context`) and the OpenTelemetry pieces it calls (the B3 and W3C
propagators, the tracer, the span, the HTTP status mapping) are not part of
the repository; each is given here as a small executable model and marked as
such in its doc comment.
-/

namespace Otelfiber

/-! ## net/http.Header -/

/-- Token bytes of an HTTP header field name (`validHeaderFieldByte`). -/
def validHeaderFieldByte (c : Char) : Bool :=
  c.isAlphanum || "!#$%&\x27*+-.^_\x60|~".data.contains c

/-- Inner loop of `textproto.CanonicalMIMEHeaderKey`: upper-case the first
letter and every letter after a dash, lower-case the others. -/
def canonLoop : Bool → List Char → List Char
  | _, [] => []
  | upper, c :: cs =>
    let d := if upper then c.toUpper else c.toLower
    d :: canonLoop (d == '-') cs

/-- Model of `textproto.CanonicalMIMEHeaderKey`: a key holding a byte that is
not a header token byte is returned unchanged. -/
def CanonicalMIMEHeaderKey (s : String) : String :=
  if s.data.all validHeaderFieldByte then String.mk (canonLoop true s.data) else s

/-- Model of `http.Header` (`map[string][]string`): canonical key to values. -/
structure Header where
  entries : List (String × List String)
deriving DecidableEq, Repr

/-- The carrier `make(http.Header)`. -/
def Header.empty : Header := ⟨[]⟩

/-- Values stored under an exact (already canonical) key. -/
def Header.lookup : List (String × List String) → String → Option (List String)
  | [], _ => none
  | (k, vs) :: rest, key => if k = key then some vs else Header.lookup rest key

/-- Replace or create the entry of an exact key. -/
def Header.store : List (String × List String) → String → List String →
    List (String × List String)
  | [], key, vs => [(key, vs)]
  | (k, ws) :: rest, key, vs =>
    if k = key then (k, vs) :: rest else (k, ws) :: Header.store rest key vs

/-- All values of a key, `h.Values(key)`. -/
def Header.Values (h : Header) (key : String) : List String :=
  (Header.lookup h.entries (CanonicalMIMEHeaderKey key)).getD []

/-- First value of a key or the empty string, `h.Get(key)`. -/
def Header.Get (h : Header) (key : String) : String :=
  (Header.Values h key).headD ""

/-- Append a value under the canonical key, `h.Add(key, value)`. -/
def Header.Add (h : Header) (key value : String) : Header :=
  ⟨Header.store h.entries (CanonicalMIMEHeaderKey key) (Header.Values h key ++ [value])⟩

/-- Replace the values of the canonical key, `h.Set(key, value)`. -/
def Header.Set (h : Header) (key value : String) : Header :=
  ⟨Header.store h.entries (CanonicalMIMEHeaderKey key) [value]⟩

/-- Names present on a header map. -/
def Header.keys (h : Header) : List String := h.entries.map Prod.fst

/-! ## Trace identifiers and context.Context -/

/-- Lower-case hexadecimal digit. -/
def isLowerHex (c : Char) : Bool :=
  c.isDigit || ('a' ≤ c && c ≤ 'f')

/-- An identifier is kept as its lower-case hexadecimal rendering; it is valid
when it has the right width, only hexadecimal digits and is not all zero. -/
def validID (width : Nat) (s : String) : Bool :=
  s.data.length == width && s.data.all isLowerHex && s.data.any (fun c => c != '0')

/-- Validity of a 128-bit trace id (32 hexadecimal digits). -/
def validTraceID (s : String) : Bool := validID 32 s

/-- Validity of a 64-bit span id (16 hexadecimal digits). -/
def validSpanID (s : String) : Bool := validID 16 s

/-- Model of `trace.SpanContext`. -/
structure SpanContext where
  traceID : String
  spanID : String
  sampled : Bool
  remote : Bool
deriving DecidableEq, Repr

/-- The zero `SpanContext`. -/
def SpanContext.zero : SpanContext := ⟨"", "", false, false⟩

/-- Model of `SpanContext.IsValid`. -/
def SpanContext.IsValid (sc : SpanContext) : Bool :=
  validTraceID sc.traceID && validSpanID sc.spanID

/-- One layer of a `context.Context`. `cancel id` is the layer made by
`context.WithCancel`, `id` naming its cancellation state. `request` is the
request context of the server (`c.Context()`), held by reference: the values
it exposes are those stored on the request at the time of the lookup. -/
inductive CtxEntry where
  | value (key : String) (val : String)
  | span (sc : SpanContext)
  | baggage (raw : String)
  | cancel (id : Nat)
  | request
deriving DecidableEq, Repr

/-- A `context.Context` as its chain of layers, the most recent first. -/
abbrev Context := List CtxEntry

/-- Model of `context.WithCancel`: a cancellable child of the parent, with
the cancellation state `id`. -/
def WithCancel (id : Nat) (parent : Context) : Context := CtxEntry.cancel id :: parent

/-- Model of `ctx.Err()`: a context is cancelled once the cancel function of
one of its cancellable layers has been called. -/
def Err (cancelled : List Nat) : Context → Option String
  | [] => none
  | CtxEntry.cancel id :: rest =>
    if id ∈ cancelled then some "context canceled" else Err cancelled rest
  | _ :: rest => Err cancelled rest

/-- The layers a context shows at a given time: the reference to the request
context is replaced by the values stored on the request at that time. -/
def observe (userValues : List (String × String)) : Context → Context
  | [] => []
  | CtxEntry.request :: _ => userValues.map (fun kv => CtxEntry.value kv.1 kv.2)
  | e :: rest => e :: observe userValues rest

/-- Model of `context.WithValue` for a string key and a string value. -/
def WithValue (parent : Context) (key val : String) : Context :=
  CtxEntry.value key val :: parent

/-- Model of `ctx.Value(key)` for a string key: the most recent binding. -/
def Value : Context → String → Option String
  | [], _ => none
  | CtxEntry.value k v :: rest, key => if k = key then some v else Value rest key
  | CtxEntry.request :: _, _ => none
  | _ :: rest, key => Value rest key

/-- Model of `trace.SpanContextFromContext`: the span context of the most
recent span layer, or the zero span context. -/
def SpanContextFromContext : Context → SpanContext
  | [] => SpanContext.zero
  | CtxEntry.span sc :: _ => sc
  | CtxEntry.request :: _ => SpanContext.zero
  | _ :: rest => SpanContextFromContext rest

/-- Model of `trace.ContextWithRemoteSpanContext`. -/
def ContextWithRemoteSpanContext (ctx : Context) (sc : SpanContext) : Context :=
  CtxEntry.span { sc with remote := true } :: ctx

/-! ## Propagators -/

/-- Model of `propagation.TextMapPropagator`. -/
structure TextMapPropagator where
  Extract : Context → Header → Context
  Inject : Context → Header → Header

/-- Trace-id header of the B3 multi-header encoding. -/
def b3TraceIDHeader : String := "x-b3-traceid"
/-- Span-id header of the B3 multi-header encoding. -/
def b3SpanIDHeader : String := "x-b3-spanid"
/-- Sampling header of the B3 multi-header encoding. -/
def b3SampledHeader : String := "x-b3-sampled"

/-- Modelled from the spec: the sampling flag of the multi-header encoding
(the B3 propagator package is not part of the repository). `1` is sampled,
`0` or an absent header is not sampled, anything else is malformed. -/
def b3ParseSampled (s : String) : Option Bool :=
  if s = "1" ∨ s = "true" then some true
  else if s = "0" ∨ s = "false" ∨ s = "" then some false
  else none

/-- Modelled from the spec: `extract(baseContext, carrier)` of the B3
propagator package, which is not part of the repository. It reads the trace
id, span id and sampling flag from their three headers and, when they are
absent or malformed, returns the base context unchanged. -/
def b3Extract (ctx : Context) (carrier : Header) : Context :=
  let traceID := carrier.Get b3TraceIDHeader
  let spanID := carrier.Get b3SpanIDHeader
  match b3ParseSampled (carrier.Get b3SampledHeader) with
  | none => ctx
  | some sampled =>
    if validTraceID traceID && validSpanID spanID then
      ContextWithRemoteSpanContext ctx ⟨traceID, spanID, sampled, true⟩
    else ctx

/-- Modelled from the spec: `inject(context, carrier)` of the B3 propagator
package with the multi-header encoding: the trace id and span id of the
active span context are written when they are valid, then the sampling
flag. -/
def b3Inject (ctx : Context) (carrier : Header) : Header :=
  let sc := SpanContextFromContext ctx
  let c1 :=
    if sc.IsValid then
      (carrier.Set b3TraceIDHeader sc.traceID).Set b3SpanIDHeader sc.spanID
    else carrier
  c1.Set b3SampledHeader (if sc.sampled then "1" else "0")

/-- The propagator `b3.New(b3.WithInjectEncoding(b3.B3MultipleHeader))`. -/
def b3New : TextMapPropagator := ⟨b3Extract, b3Inject⟩

/-- Header of the W3C trace-context encoding. -/
def traceparentHeader : String := "traceparent"

/-- Split a list of characters at every dash. -/
def splitDash : List Char → List (List Char)
  | [] => [[]]
  | c :: cs =>
    if c = '-' then [] :: splitDash cs
    else
      match splitDash cs with
      | [] => [[c]]
      | p :: ps => (c :: p) :: ps

/-- Modelled from the spec: the standard single-header encoding
`version-traceid-spanid-flags` read by `propagation.TraceContext`, which is
not part of the repository; the low bit of the flags is the sampling flag. -/
def parseTraceparent (h : String) : Option SpanContext :=
  match splitDash h.data with
  | [ver, tid, sid, flags] =>
    if ver = "00".data && validTraceID (String.mk tid) && validSpanID (String.mk sid)
        && flags.length == 2 && flags.all isLowerHex then
      some ⟨String.mk tid, String.mk sid, "13579bdf".data.contains (flags.getLastD '0'), true⟩
    else none
  | _ => none

/-- Modelled from the spec: `propagation.TraceContext` extraction. -/
def traceContextExtract (ctx : Context) (carrier : Header) : Context :=
  match parseTraceparent (carrier.Get traceparentHeader) with
  | some sc => ContextWithRemoteSpanContext ctx sc
  | none => ctx

/-- Modelled from the spec: `propagation.TraceContext` injection. -/
def traceContextInject (ctx : Context) (carrier : Header) : Header :=
  let sc := SpanContextFromContext ctx
  if sc.IsValid then
    carrier.Set traceparentHeader
      ("00-" ++ sc.traceID ++ "-" ++ sc.spanID ++ (if sc.sampled then "-01" else "-00"))
  else carrier

/-- The propagator `propagation.TraceContext{}`. -/
def TraceContext : TextMapPropagator := ⟨traceContextExtract, traceContextInject⟩

/-- Most recent baggage layer of a context. -/
def baggageFromContext : Context → Option String
  | [] => none
  | CtxEntry.baggage raw :: _ => some raw
  | _ :: rest => baggageFromContext rest

/-- Modelled from the spec: the baggage-style propagator
`propagation.Baggage{}`, carrying the `baggage` header as an opaque string. -/
def Baggage : TextMapPropagator where
  Extract ctx carrier :=
    if carrier.Get "baggage" = "" then ctx else CtxEntry.baggage (carrier.Get "baggage") :: ctx
  Inject ctx carrier :=
    match baggageFromContext ctx with
    | some raw => if raw = "" then carrier else carrier.Set "baggage" raw
    | none => carrier

/-- Model of `propagation.NewCompositeTextMapPropagator`: every member is
applied in turn, independently. -/
def NewCompositeTextMapPropagator (ps : List TextMapPropagator) : TextMapPropagator where
  Extract ctx carrier := ps.foldl (fun acc p => p.Extract acc carrier) ctx
  Inject ctx carrier := ps.foldl (fun acc p => p.Inject ctx acc) carrier

/-! ## Tracer and span -/

/-- Model of `codes.Code`, the status code of a span. -/
inductive Code where
  | Unset
  | Error
  | Ok
deriving DecidableEq, Repr

/-- Model of `trace.SpanKind` (the kinds the repository uses). -/
inductive SpanKind where
  | Server
  | Client
  | Internal
deriving DecidableEq, Repr

/-- Value of a span attribute. -/
inductive AttrValue where
  | str (s : String)
  | int (n : Int)
deriving DecidableEq, Repr

/-- Model of `attribute.KeyValue`. -/
abbrev KeyValue := String × AttrValue

/-- The span handle held by the middleware: what was done to the span through
that handle. A span that has ended is immutable. -/
structure Span where
  sc : SpanContext
  name : String
  kind : SpanKind
  attributes : List KeyValue
  errors : List String
  status : Code × String
  endCount : Nat
deriving DecidableEq, Repr

/-- Model of `span.SetName`. -/
def Span.SetName (s : Span) (name : String) : Span :=
  if s.endCount = 0 then { s with name := name } else s

/-- Model of `span.SetAttributes`: the set is append-only. -/
def Span.SetAttributes (s : Span) (kvs : List KeyValue) : Span :=
  if s.endCount = 0 then { s with attributes := s.attributes ++ kvs } else s

/-- Model of `span.RecordError`: the error is attached, the status is left
alone. -/
def Span.RecordError (s : Span) (err : String) : Span :=
  if s.endCount = 0 then { s with errors := s.errors ++ [err] } else s

/-- Model of `span.SetStatus`. -/
def Span.SetStatus (s : Span) (code : Code) (msg : String) : Span :=
  if s.endCount = 0 then { s with status := (code, msg) } else s

/-- Model of `span.End`: every call is counted. -/
def Span.End (s : Span) : Span := { s with endCount := s.endCount + 1 }

/-- Source of fresh identifiers of a tracer provider. -/
structure IDGenerator where
  NewIDs : String × String
  NewSpanID : String → String

/-- Model of a tracer provider; the one built by `tracerProvider` samples
always. -/
structure TracerProvider where
  idGen : IDGenerator

/-- Model of the tracer returned by `TracerProvider.Tracer`. -/
structure Tracer where
  name : String
  idGen : IDGenerator

/-- Model of `TracerProvider.Tracer(name, ...)`. -/
def TracerProvider.Tracer (tp : TracerProvider) (name : String) : Tracer :=
  ⟨name, tp.idGen⟩

/-- Options of `tracer.Start`: the initial attributes and the span kind. -/
structure SpanStartOptions where
  attributes : List KeyValue
  kind : SpanKind
deriving DecidableEq, Repr

/-- Modelled from the spec: `tracer.Start` of the tracing SDK, which is not
part of the repository. A child span derives a new span id and keeps the
trace id of a valid parent; without one a fresh trace id is generated. The
span is sampled and is stored in the returned context. -/
def Tracer.Start (t : Tracer) (ctx : Context) (spanName : String) (opts : SpanStartOptions) :
    Context × Span :=
  let parent := SpanContextFromContext ctx
  let sc : SpanContext :=
    if parent.IsValid then ⟨parent.traceID, t.idGen.NewSpanID parent.traceID, true, false⟩
    else ⟨t.idGen.NewIDs.1, t.idGen.NewIDs.2, true, false⟩
  (CtxEntry.span sc :: ctx, ⟨sc, spanName, opts.kind, opts.attributes, [], (Code.Unset, ""), 0⟩)

/-- Modelled from the spec: `semconv.SpanStatusFromHTTPStatusCodeAndSpanKind`,
which is not part of the repository: OK for the non-error ranges, ERROR
otherwise, with a message for the server-error codes. -/
def SpanStatusFromHTTPStatusCodeAndSpanKind (code : Int) (_kind : SpanKind) : Code × String :=
  if 100 ≤ code ∧ code < 400 then (Code.Ok, "")
  else if 500 ≤ code ∧ code < 600 then (Code.Error, "server error")
  else (Code.Error, "")

/-- Model of `semconv.HTTPAttributesFromHTTPStatusCode`. -/
def HTTPAttributesFromHTTPStatusCode (code : Int) : List KeyValue :=
  [("http.status_code", AttrValue.int code)]

/-! ## Process-wide registry (`pkg/tracer.go`) -/

/-- The process-wide tracer provider and propagator of the `otel` package. -/
structure Globals where
  tracerProvider : TracerProvider
  textMapPropagator : TextMapPropagator

/-- The registration done by `InitializeGlobalTracer`: the always-sample
provider of `tracerProvider` and the composite of the trace-context and
baggage propagators. The exporter pipeline is outside the model. -/
def InitializeGlobalTracer (gen : IDGenerator) (_serviceName _endpointURL : String)
    (g : Globals) : Globals :=
  { g with
    tracerProvider := ⟨gen⟩
    textMapPropagator := NewCompositeTextMapPropagator [TraceContext, Baggage] }

/-! ## `pkg/extraheaders.go` -/

/-- The request-id header. -/
def RequestId : String := "x-request-id"
/-- The Lightstep span-context header. -/
def OtSpanContext : String := "x-ot-span-context"
/-- The Datadog trace-id header. -/
def DataDogTraceId : String := "x-datadog-trace-id"
/-- The Datadog parent-id header. -/
def DataDogParentId : String := "x-datadog-parent-id"
/-- The Datadog sampling-priority header. -/
def DataDogSamplingPriority : String := "x-datadog-sampling-priority"

/-! ## `pkg/fiber.go` -/

/-- Key under which the tracer is stored in the request locals. -/
def tracerKey : String := "gofiber-contrib-tracer-fiber"

/-- The allow-list of extra propagated headers. -/
def ExtraHeaders : List String := ["x-request-id", "x-ot-span-context"]

/-- The part of a `*fiber.Ctx` the middleware reads and writes, with the state
behind it. `userValues` are the string values stored on the request context
(`c.Locals` or `SetUserValue` with a string), which `c.Context()` exposes;
`userContext` is the context last given to `c.SetUserContext`; `cancelSeq`
counts the cancellable contexts made so far and `cancelled` lists every call
of a cancel function. -/
structure Ctx where
  requestHeaders : List (String × String)
  method : String
  requestURI : String
  originalURL : String
  ip : String
  ips : List String
  hostname : String
  userAgent : String
  contentLength : Int
  protocol : String
  path : String
  routePath : String
  responseStatusCode : Int
  responseBody : String
  userValues : List (String × String)
  userContext : Context
  locals : List (String × Tracer)
  cancelSeq : Nat
  cancelled : List Nat

/-- Model of `c.SetUserContext`. -/
def Ctx.SetUserContext (c : Ctx) (ctx : Context) : Ctx := { c with userContext := ctx }

/-- Model of `c.Context()`: the request context, by reference. -/
def Ctx.Context (_c : Ctx) : Otelfiber.Context := [CtxEntry.request]

/-- Model of `c.UserContext()` as its readers see it: the stored context with
the request context resolved to the values the request holds now. -/
def Ctx.UserContext (c : Ctx) : Otelfiber.Context := observe c.userValues c.userContext

/-- Model of `context.WithCancel(parent)` run on the request's state: the new
context, its cancel function, and the state after the allocation. -/
def Ctx.WithCancel (c : Ctx) (parent : Otelfiber.Context) :
    Otelfiber.Context × (Ctx → Ctx) × Ctx :=
  (Otelfiber.WithCancel c.cancelSeq parent,
    fun st => { st with cancelled := c.cancelSeq :: st.cancelled },
    { c with cancelSeq := c.cancelSeq + 1 })

/-- Model of `c.Locals(key, value)`. -/
def Ctx.Locals (c : Ctx) (key : String) (t : Tracer) : Ctx :=
  { c with locals := (key, t) :: c.locals }

/-- How the rest of the handler chain (`c.Next()`) finished. -/
inductive Outcome where
  | nil
  | error (err : String)
  | panic (val : String)
deriving DecidableEq, Repr

/-- A `fiber.Handler` seen from its caller. -/
abbrev Handler := Ctx → Ctx × Outcome

/-- The application's configured `ErrorHandler`. -/
abbrev ErrorHandler := Ctx → String → Ctx × Outcome

/-- The settings of the middleware (`config`, whose declaration is missing from the sources); the
three fields are the ones `Middleware` reads. -/
structure config where
  TracerProvider : Option TracerProvider
  Propagators : Option TextMapPropagator
  SpanNameFormatter : Option (Ctx → String)

/-- An `Option` of the middleware applies itself to the settings. -/
abbrev MiddlewareOption := config → config

/-- Modelled from the spec: `WithPropagators`, whose declaration is missing
from the sources; it
selects the propagator the middleware extracts with. -/
def WithPropagators (p : TextMapPropagator) : MiddlewareOption :=
  fun cfg => { cfg with Propagators := some p }

/-- The default formatter: the matched route template. -/
def defaultSpanNameFormatter (c : Ctx) : String := c.routePath

/-- The settings after `Middleware` applied the options and filled the
defaults from the process-wide registry (lines 39 to 59). -/
structure Resolved where
  tracer : Tracer
  propagators : TextMapPropagator
  spanNameFormatter : Ctx → String

/-- The setup part of `Middleware`. -/
def resolve (g : Globals) (serviceName : String) (opts : List MiddlewareOption) : Resolved :=
  let cfg := opts.foldl (fun cfg opt => opt cfg) (⟨none, none, none⟩ : config)
  let tp := cfg.TracerProvider.getD g.tracerProvider
  { tracer := tp.Tracer serviceName
    propagators := cfg.Propagators.getD g.textMapPropagator
    spanNameFormatter := cfg.SpanNameFormatter.getD defaultSpanNameFormatter }

/-- The carrier built from the request headers (`VisitAll` with `Add`). -/
def reqHeaderOf (c : Ctx) : Header :=
  c.requestHeaders.foldl (fun h kv => h.Add kv.1 kv.2) Header.empty

/-- The options of the server span started for a request. -/
def startOptions (service : String) (c : Ctx) : SpanStartOptions :=
  let base : List KeyValue :=
    [("http.server_name", AttrValue.str service),
     ("http.method", AttrValue.str c.method),
     ("http.target", AttrValue.str c.requestURI),
     ("http.url", AttrValue.str c.originalURL),
     ("net.host.ip", AttrValue.str c.ip),
     ("net.host.name", AttrValue.str c.hostname),
     ("http.user_agent", AttrValue.str c.userAgent),
     ("http.request_content_length", AttrValue.int c.contentLength),
     ("http.scheme", AttrValue.str c.protocol),
     ("net.transport", AttrValue.str "ip_tcp")]
  let client : List KeyValue :=
    match c.ips with
    | [] => []
    | first :: _ => [("http.client_ip", AttrValue.str first)]
  ⟨base ++ client, SpanKind.Server⟩

/-- The loop over `ExtraHeaders` (lines 100 to 104): a header whose first
value is not empty is stored in the context under its allow-list name. -/
def addExtraHeaders (reqHeader : Header) (ctx : Context) : List String → Context
  | [] => ctx
  | k :: ks =>
    if reqHeader.Get k ≠ "" then addExtraHeaders reqHeader (WithValue ctx k (reqHeader.Get k)) ks
    else addExtraHeaders reqHeader ctx ks

/-- The request as the handler chain receives it, with the locals of the
middleware handler: `savedCtx`, its `cancel` function and the span. -/
structure Entered where
  c : Ctx
  savedCtx : Context
  cancel : Ctx → Ctx
  span : Span

/-- The handler returned by `Middleware`, up to `c.SetUserContext(ctx)`
(lines 62 to 108). -/
def enter (r : Resolved) (service : String) (c : Ctx) : Entered :=
  let c := c.Locals tracerKey r.tracer
  let made := c.WithCancel c.Context
  let savedCtx := made.1
  let cancel := made.2.1
  let c := made.2.2
  let reqHeader := reqHeaderOf c
  let ctx := r.propagators.Extract savedCtx reqHeader
  let spanName := c.path
  let started := r.tracer.Start ctx spanName (startOptions service c)
  let ctx := addExtraHeaders reqHeader started.1 ExtraHeaders
  ⟨c.SetUserContext ctx, savedCtx, cancel, started.2⟩

/-- The deferred block of the middleware handler (lines 65 to 68): the user
context is set back to `savedCtx`, then `cancel` is called. -/
def deferred (e : Entered) (c : Ctx) : Ctx :=
  e.cancel (c.SetUserContext e.savedCtx)

/-- What a request left behind when the middleware handler is done. -/
structure Result where
  c : Ctx
  span : Span
  ret : Outcome

/-- The handler returned by `Middleware(service, opts...)`, run on a request.
`next` is the rest of the chain and `errorHandler` the application's
`ErrorHandler`, whose returned error is discarded. The deferred calls run on
the normal return and when `c.Next()` panics: first `span.End()`, then the
block restoring `savedCtx` and cancelling it. -/
def Middleware (g : Globals) (serviceName service : String) (opts : List MiddlewareOption)
    (errorHandler : ErrorHandler) (next : Handler) (c : Ctx) : Result :=
  let r := resolve g serviceName opts
  let e := enter r service c
  match next e.c with
  | (c1, Outcome.panic v) =>
    ⟨deferred e c1, e.span.End, Outcome.panic v⟩
  | (c1, err) =>
    let span := e.span.SetName (r.spanNameFormatter c1)
    let span := span.SetAttributes [("http.route", AttrValue.str c1.routePath)]
    let errStep : Ctx × Span :=
      match err with
      | Outcome.error msg => ((errorHandler c1 msg).1, span.RecordError msg)
      | _ => (c1, span)
    let c2 := errStep.1
    let span := errStep.2
    let attrs := HTTPAttributesFromHTTPStatusCode c2.responseStatusCode
    let st := SpanStatusFromHTTPStatusCodeAndSpanKind c2.responseStatusCode SpanKind.Server
    let span := span.SetAttributes attrs
    let span := span.SetStatus st.1 st.2
    ⟨deferred e c2, span.End, Outcome.nil⟩

/-- The outbound carrier: the B3 multi-header injection of the user context,
then every allow-listed name bound in it. -/
def GetOtelSpanHeaders (c : Ctx) : Header :=
  let carrier := b3New.Inject c.UserContext Header.empty
  ExtraHeaders.foldl
    (fun carrier k =>
      match Value c.UserContext k with
      | some value => carrier.Add k value
      | none => carrier)
    carrier

/-- The span context of the user context, `GetCurrentContextSpan`. -/
def GetCurrentContextSpan (c : Ctx) : SpanContext := SpanContextFromContext c.UserContext


/-! ## Notions used to state the properties -/

/-- Values a request carries under a name, in order; names are compared in
their canonical form, as the carrier does. -/
def requestValues (hs : List (String × String)) (k : String) : List String :=
  (hs.filter (fun kv => CanonicalMIMEHeaderKey kv.1 = CanonicalMIMEHeaderKey k)).map Prod.snd

/-- First value a request carries under a name, or the empty string. -/
def firstValue (hs : List (String × String)) (k : String) : String :=
  (requestValues hs k).headD ""

/-- Canonical names the B3 injection may write. -/
def b3Keys : List String := ["X-B3-Traceid", "X-B3-Spanid", "X-B3-Sampled"]

/-- An identifier source that hands out fixed identifiers. -/
def sampleGen : IDGenerator :=
  ⟨("0af7651916cd43dd8448eb211c80319c", "b7ad6b7169203331"), fun _ => "00f067aa0ba902b7"⟩

/-- The registry of a process that registered nothing: a propagator that
reads and writes no header. -/
def emptyGlobals : Globals := ⟨⟨sampleGen⟩, ⟨fun ctx _ => ctx, fun _ h => h⟩⟩

/-- The registry after `InitializeGlobalTracer`. -/
def sampleGlobals : Globals :=
  InitializeGlobalTracer sampleGen "fiber.default" "http://127.0.0.1:3001" emptyGlobals

/-- A `GET /users/42` request with the given headers on a fresh context. -/
def sampleRequest (hs : List (String × String)) : Ctx :=
  { requestHeaders := hs, method := "GET", requestURI := "/users/42",
    originalURL := "/users/42", ip := "127.0.0.1", ips := [], hostname := "localhost",
    userAgent := "curl", contentLength := 0, protocol := "http", path := "/users/42",
    routePath := "/users/:id", responseStatusCode := 200, responseBody := "",
    userValues := [], userContext := [], locals := [], cancelSeq := 0, cancelled := [] }

/-- Headers of a request inside a B3 trace that also carries a request id. -/
def b3Headers : List (String × String) :=
  [("X-B3-Traceid", "463ac35c9f6413ad48485a3953bb6124"), ("X-B3-Spanid", "a2fb4a1d1a96d312"),
   ("X-B3-Sampled", "1"), ("X-Request-Id", "abc"), ("X-Other", "zzz")]

/-- Headers of a request that carries all five names of `extraheaders.go`. -/
def fiveHeaders : List (String × String) :=
  [("X-Request-Id", "r1"), ("X-Ot-Span-Context", "o1"), ("X-Datadog-Trace-Id", "11"),
   ("X-Datadog-Parent-Id", "22"), ("X-Datadog-Sampling-Priority", "1")]

/-- A handler chain that fails with the error `boom`. -/
def failingHandler : Handler := fun c => (c, Outcome.error "boom")

/-- A handler chain that succeeds and leaves the response as it is. -/
def okHandler : Handler := fun c => (c, Outcome.nil)

/-- An `ErrorHandler` that answers every error with status 500 and appends
the error to the response body. -/
def serverErrorHandler : ErrorHandler :=
  fun c msg =>
    ({ c with responseStatusCode := 500, responseBody := c.responseBody ++ msg }, Outcome.nil)

/-- A handler chain that stores a request id on the request context, as
`c.Locals("x-request-id", "late")` does, and succeeds. -/
def storingHandler : Handler :=
  fun c => ({ c with userValues := ("x-request-id", "late") :: c.userValues }, Outcome.nil)

/-- An `ErrorHandler` that leaves the response status as it is. -/
def quietErrorHandler : ErrorHandler := fun c _ => (c, Outcome.nil)

/-- The initial span name as the specification words it: the route template
if known, else the raw path. -/
def specInitialSpanName (c : Ctx) : String :=
  if c.routePath ≠ "" then c.routePath else c.path

/-- Headers of a request inside a W3C trace. -/
def w3cHeaders : List (String × String) :=
  [("Traceparent", "00-463ac35c9f6413ad48485a3953bb6124-a2fb4a1d1a96d312-01")]

/-- The request state when the deferred calls of the middleware handler
start: what the rest of the chain left, passed through the `ErrorHandler` when
the chain returned an error. -/
def stateAtExit (errorHandler : ErrorHandler) (next : Handler) (e : Entered) : Ctx :=
  match next e.c with
  | (c1, Outcome.error msg) => (errorHandler c1 msg).1
  | (c1, _) => c1

/-- The value the request context itself (`c.Context()`) holds under a key. -/
def Ctx.requestValue (c : Ctx) (key : String) : Option String :=
  Value (observe c.userValues c.Context) key

/-! ## Lemmas on headers and contexts -/

theorem lookup_store (l : List (String × List String)) (k k2 : String) (vs : List String) :
    Header.lookup (Header.store l k vs) k2 = if k = k2 then some vs else Header.lookup l k2 := by
  induction l with
  | nil =>
    simp only [Header.store, Header.lookup]
  | cons p rest ih =>
    obtain ⟨a, ws⟩ := p
    by_cases hak : a = k
    · subst hak
      by_cases h2 : a = k2 <;> simp [Header.store, Header.lookup, h2]
    · by_cases h2 : a = k2
      · subst h2
        have : ¬ k = a := fun h => hak h.symm
        simp [Header.store, Header.lookup, hak, this]
      · simp [Header.store, Header.lookup, hak, h2, ih]

theorem values_set (h : Header) (k k2 v : String) :
    (h.Set k v).Values k2 =
      if CanonicalMIMEHeaderKey k = CanonicalMIMEHeaderKey k2 then [v] else h.Values k2 := by
  unfold Header.Set Header.Values
  simp only [lookup_store]
  split <;> rfl

theorem values_add (h : Header) (k k2 v : String) :
    (h.Add k v).Values k2 =
      if CanonicalMIMEHeaderKey k = CanonicalMIMEHeaderKey k2 then h.Values k ++ [v]
      else h.Values k2 := by
  unfold Header.Add
  simp only [Header.Values, lookup_store]
  split <;> rfl

theorem keys_store (l : List (String × List String)) (k : String) (vs : List String) :
    ∀ x ∈ (Header.store l k vs).map Prod.fst, x = k ∨ x ∈ l.map Prod.fst := by
  induction l with
  | nil => intro x hx; simp [Header.store] at hx; exact Or.inl hx
  | cons p rest ih =>
    obtain ⟨a, ws⟩ := p
    intro x hx
    by_cases hak : a = k
    · simp [Header.store, hak] at hx
      rcases hx with hx | hx
      · exact Or.inl hx
      · right; simp; right; simpa using hx
    · simp only [Header.store, hak, if_false, List.map_cons, List.mem_cons] at hx
      rcases hx with hx | hx
      · right; simp [hx]
      · rcases ih x hx with h1 | h1
        · exact Or.inl h1
        · right; simp only [List.map_cons, List.mem_cons]; exact Or.inr h1

theorem keys_set (h : Header) (k v : String) :
    ∀ x ∈ (h.Set k v).keys, x = CanonicalMIMEHeaderKey k ∨ x ∈ h.keys :=
  keys_store h.entries _ _

theorem keys_add (h : Header) (k v : String) :
    ∀ x ∈ (h.Add k v).keys, x = CanonicalMIMEHeaderKey k ∨ x ∈ h.keys :=
  keys_store h.entries _ _

theorem values_canon (h : Header) (k k2 : String)
    (hk : CanonicalMIMEHeaderKey k = CanonicalMIMEHeaderKey k2) : h.Values k = h.Values k2 := by
  unfold Header.Values
  rw [hk]

theorem values_foldl_add (hs : List (String × String)) (h : Header) (k : String) :
    (hs.foldl (fun h kv => h.Add kv.1 kv.2) h).Values k = h.Values k ++ requestValues hs k := by
  induction hs generalizing h with
  | nil => simp [requestValues]
  | cons p rest ih =>
    simp only [List.foldl_cons, ih, values_add]
    by_cases hc : CanonicalMIMEHeaderKey p.1 = CanonicalMIMEHeaderKey k
    · simp [requestValues, List.filter_cons, hc, values_canon h _ _ hc]
    · simp [requestValues, List.filter_cons, hc]

theorem reqHeaderOf_values (c : Ctx) (k : String) :
    (reqHeaderOf c).Values k = requestValues c.requestHeaders k := by
  unfold reqHeaderOf
  rw [values_foldl_add]
  simp [Header.Values, Header.empty, Header.lookup]

theorem reqHeaderOf_get (c : Ctx) (k : String) :
    (reqHeaderOf c).Get k = firstValue c.requestHeaders k := by
  unfold Header.Get firstValue
  rw [reqHeaderOf_values]

theorem spanContext_values (vs : List (String × String)) :
    SpanContextFromContext (vs.map (fun kv => CtxEntry.value kv.1 kv.2)) = SpanContext.zero := by
  induction vs with
  | nil => rfl
  | cons kv rest ih => simpa [SpanContextFromContext] using ih

theorem spanContext_observe (vs : List (String × String)) (ctx : Context) :
    SpanContextFromContext (observe vs ctx) = SpanContextFromContext ctx := by
  induction ctx with
  | nil => rfl
  | cons e rest ih =>
    cases e with
    | value k v => simpa [observe, SpanContextFromContext] using ih
    | span sc => simp [observe, SpanContextFromContext]
    | baggage raw => simpa [observe, SpanContextFromContext] using ih
    | cancel id => simpa [observe, SpanContextFromContext] using ih
    | request => simpa [observe, SpanContextFromContext] using spanContext_values vs

theorem observe_addExtraHeaders (vs : List (String × String)) (rh : Header) (ks : List String)
    (ctx : Context) :
    observe vs (addExtraHeaders rh ctx ks) = addExtraHeaders rh (observe vs ctx) ks := by
  induction ks generalizing ctx with
  | nil => rfl
  | cons k ks ih =>
    unfold addExtraHeaders
    split
    · rw [ih]; rfl
    · exact ih ctx

theorem spanContext_addExtraHeaders (rh : Header) (ks : List String) (ctx : Context) :
    SpanContextFromContext (addExtraHeaders rh ctx ks) = SpanContextFromContext ctx := by
  induction ks generalizing ctx with
  | nil => rfl
  | cons k ks ih =>
    unfold addExtraHeaders
    split
    · rw [ih]; rfl
    · exact ih ctx

theorem value_addExtraHeaders_hit (rh : Header) (ctx : Context) (k : String)
    (hk : k ∈ ExtraHeaders) (hne : rh.Get k ≠ "") :
    Value (addExtraHeaders rh ctx ExtraHeaders) k = some (rh.Get k) := by
  simp only [ExtraHeaders, List.mem_cons, List.mem_singleton, List.not_mem_nil, or_false] at hk
  rcases hk with rfl | rfl
  · by_cases h2 : rh.Get "x-ot-span-context" ≠ ""
    · simp [ExtraHeaders, addExtraHeaders, hne, h2, WithValue, Value]
    · simp [ExtraHeaders, addExtraHeaders, hne, h2, WithValue, Value]
  · by_cases h2 : rh.Get "x-request-id" ≠ ""
    · simp [ExtraHeaders, addExtraHeaders, hne, h2, WithValue, Value]
    · simp [ExtraHeaders, addExtraHeaders, hne, h2, WithValue, Value]

theorem keys_b3Inject (ctx : Context) :
    ∀ x ∈ (b3Inject ctx Header.empty).keys, x ∈ b3Keys := by
  intro x hx
  unfold b3Inject at hx
  simp only at hx
  rcases keys_set _ _ _ x hx with h | h
  · subst h; decide
  · split at h
    · rcases keys_set _ _ _ x h with h | h
      · subst h; decide
      · rcases keys_set _ _ _ x h with h | h
        · subst h; decide
        · simp [Header.keys, Header.empty] at h
    · simp [Header.keys, Header.empty] at h

theorem values_b3Inject_other (ctx : Context) (k : String)
    (hk : CanonicalMIMEHeaderKey k ∉ b3Keys) : (b3Inject ctx Header.empty).Values k = [] := by
  have h1 : ¬ CanonicalMIMEHeaderKey b3TraceIDHeader = CanonicalMIMEHeaderKey k := by
    intro h; apply hk; rw [← h]; decide
  have h2 : ¬ CanonicalMIMEHeaderKey b3SpanIDHeader = CanonicalMIMEHeaderKey k := by
    intro h; apply hk; rw [← h]; decide
  have h3 : ¬ CanonicalMIMEHeaderKey b3SampledHeader = CanonicalMIMEHeaderKey k := by
    intro h; apply hk; rw [← h]; decide
  unfold b3Inject
  simp only [values_set, h3, if_false]
  split
  · simp [values_set, h1, h2, Header.Values, Header.empty, Header.lookup]
  · simp [Header.Values, Header.empty, Header.lookup]

/-- The outbound carrier as two explicit steps over the allow-list. -/
theorem getOtelSpanHeaders_eq (c : Ctx) :
    GetOtelSpanHeaders c =
      (fun h : Header =>
        match Value c.UserContext "x-ot-span-context" with
        | some v => h.Add "x-ot-span-context" v
        | none => h)
      ((fun h : Header =>
        match Value c.UserContext "x-request-id" with
        | some v => h.Add "x-request-id" v
        | none => h)
      (b3Inject c.UserContext Header.empty)) := by
  rfl

theorem values_getOtelSpanHeaders (c : Ctx) (k : String) :
    (GetOtelSpanHeaders c).Values k =
      (b3Inject c.UserContext Header.empty).Values k
      ++ (if CanonicalMIMEHeaderKey "x-request-id" = CanonicalMIMEHeaderKey k then
            (Value c.UserContext "x-request-id").toList else [])
      ++ (if CanonicalMIMEHeaderKey "x-ot-span-context" = CanonicalMIMEHeaderKey k then
            (Value c.UserContext "x-ot-span-context").toList else []) := by
  rw [getOtelSpanHeaders_eq]
  have hne : ¬ CanonicalMIMEHeaderKey "x-request-id" = CanonicalMIMEHeaderKey "x-ot-span-context" := by
    decide
  have hb1 : (b3Inject c.UserContext Header.empty).Values "x-request-id" = [] :=
    values_b3Inject_other _ _ (by decide)
  have hb2 : (b3Inject c.UserContext Header.empty).Values "x-ot-span-context" = [] :=
    values_b3Inject_other _ _ (by decide)
  have hk1 : CanonicalMIMEHeaderKey "x-request-id" = CanonicalMIMEHeaderKey k →
      (b3Inject c.UserContext Header.empty).Values k = [] :=
    fun h => (values_canon _ _ _ h).symm.trans hb1
  have hk2 : CanonicalMIMEHeaderKey "x-ot-span-context" = CanonicalMIMEHeaderKey k →
      (b3Inject c.UserContext Header.empty).Values k = [] :=
    fun h => (values_canon _ _ _ h).symm.trans hb2
  by_cases hc : CanonicalMIMEHeaderKey "x-request-id" = CanonicalMIMEHeaderKey k
  · have hc2 : ¬ CanonicalMIMEHeaderKey "x-ot-span-context" = CanonicalMIMEHeaderKey k :=
      fun h => hne (hc.trans h.symm)
    cases h1 : Value c.UserContext "x-request-id" <;>
      cases h2 : Value c.UserContext "x-ot-span-context" <;>
      simp [values_add, hc, hc2, hb1, hk1 hc]
  · by_cases hc2 : CanonicalMIMEHeaderKey "x-ot-span-context" = CanonicalMIMEHeaderKey k
    · cases h1 : Value c.UserContext "x-request-id" <;>
        cases h2 : Value c.UserContext "x-ot-span-context" <;>
        simp [values_add, hc, hc2, hb2, hk2 hc2, hne]
    · cases h1 : Value c.UserContext "x-request-id" <;>
        cases h2 : Value c.UserContext "x-ot-span-context" <;>
        simp [values_add, hc, hc2]

theorem values_b3Inject_traceID (ctx : Context) :
    (b3Inject ctx Header.empty).Values b3TraceIDHeader =
      if (SpanContextFromContext ctx).IsValid then [(SpanContextFromContext ctx).traceID]
      else [] := by
  have h1 : ¬ CanonicalMIMEHeaderKey b3SampledHeader = CanonicalMIMEHeaderKey b3TraceIDHeader := by
    decide
  have h2 : ¬ CanonicalMIMEHeaderKey b3SpanIDHeader = CanonicalMIMEHeaderKey b3TraceIDHeader := by
    decide
  unfold b3Inject
  simp only [values_set, h1, if_false]
  split
  · simp [values_set, h2]
  · simp [Header.Values, Header.empty, Header.lookup]

theorem values_b3Inject_spanID (ctx : Context) :
    (b3Inject ctx Header.empty).Values b3SpanIDHeader =
      if (SpanContextFromContext ctx).IsValid then [(SpanContextFromContext ctx).spanID]
      else [] := by
  have h1 : ¬ CanonicalMIMEHeaderKey b3SampledHeader = CanonicalMIMEHeaderKey b3SpanIDHeader := by
    decide
  unfold b3Inject
  simp only [values_set, h1, if_false]
  split
  · simp [values_set]
  · simp [Header.Values, Header.empty, Header.lookup]

theorem values_b3Inject_sampled (ctx : Context) :
    (b3Inject ctx Header.empty).Values b3SampledHeader =
      [if (SpanContextFromContext ctx).sampled then "1" else "0"] := by
  unfold b3Inject
  simp [values_set]

theorem values_getOtelSpanHeaders_b3 (c : Ctx) (k : String)
    (hk : CanonicalMIMEHeaderKey k ∈ b3Keys) :
    (GetOtelSpanHeaders c).Values k = (b3Inject c.UserContext Header.empty).Values k := by
  rw [values_getOtelSpanHeaders]
  have h1 : ¬ CanonicalMIMEHeaderKey "x-request-id" = CanonicalMIMEHeaderKey k := by
    intro h; rw [← h] at hk; revert hk; decide
  have h2 : ¬ CanonicalMIMEHeaderKey "x-ot-span-context" = CanonicalMIMEHeaderKey k := by
    intro h; rw [← h] at hk; revert hk; decide
  simp [h1, h2]

theorem enter_savedCtx (r : Resolved) (service : String) (c : Ctx) :
    (enter r service c).savedCtx = WithCancel c.cancelSeq [CtxEntry.request] := rfl

theorem enter_userContext (r : Resolved) (service : String) (c : Ctx) :
    (enter r service c).c.UserContext =
      addExtraHeaders (reqHeaderOf c)
        (CtxEntry.span (enter r service c).span.sc ::
          observe c.userValues
            (r.propagators.Extract (enter r service c).savedCtx (reqHeaderOf c)))
        ExtraHeaders := by
  show observe c.userValues (addExtraHeaders (reqHeaderOf c) _ ExtraHeaders) = _
  rw [observe_addExtraHeaders]
  rfl

theorem enter_spanContext (r : Resolved) (service : String) (c : Ctx) :
    SpanContextFromContext (enter r service c).c.UserContext = (enter r service c).span.sc := by
  rw [enter_userContext, spanContext_addExtraHeaders]
  rfl

theorem enter_span_sc (r : Resolved) (service : String) (c : Ctx) :
    (enter r service c).span.sc =
      (let parent := SpanContextFromContext
          (r.propagators.Extract (enter r service c).savedCtx (reqHeaderOf c))
       if parent.IsValid then ⟨parent.traceID, r.tracer.idGen.NewSpanID parent.traceID, true, false⟩
       else ⟨r.tracer.idGen.NewIDs.1, r.tracer.idGen.NewIDs.2, true, false⟩) := by
  rfl

theorem b3Extract_valid (ctx : Context) (h : Header) (sampled : Bool)
    (hs : b3ParseSampled (h.Get b3SampledHeader) = some sampled)
    (ht : validTraceID (h.Get b3TraceIDHeader) = true)
    (hsp : validSpanID (h.Get b3SpanIDHeader) = true) :
    SpanContextFromContext (b3Extract ctx h) =
      ⟨h.Get b3TraceIDHeader, h.Get b3SpanIDHeader, sampled, true⟩ := by
  unfold b3Extract
  simp [hs, ht, hsp, ContextWithRemoteSpanContext, SpanContextFromContext]

/-! ## The claims -/

/-- C1 (trace-id continuity). A request whose headers carry a valid B3
multi-header trace context with trace id `T`, handled by the middleware
configured with the B3 propagator as in `main`: the carrier built by
`GetOtelSpanHeaders` from the request's context during handling holds the
trace-id header with the single value `T`. -/
theorem trace_id_continuity (g : Globals) (serviceName service : String) (c : Ctx) (T : String)
    (hT : firstValue c.requestHeaders b3TraceIDHeader = T)
    (hvalidT : validTraceID T = true)
    (hvalidS : validSpanID (firstValue c.requestHeaders b3SpanIDHeader) = true)
    (hsampled : b3ParseSampled (firstValue c.requestHeaders b3SampledHeader) ≠ none)
    (hgen : validSpanID (g.tracerProvider.idGen.NewSpanID T) = true) :
    (GetOtelSpanHeaders
        (enter (resolve g serviceName [WithPropagators b3New]) service c).c).Values
      b3TraceIDHeader = [T] := by
  obtain ⟨sampled, hs⟩ := Option.ne_none_iff_exists'.mp hsampled
  have hparent : SpanContextFromContext
      (b3Extract (enter (resolve g serviceName [WithPropagators b3New]) service c).savedCtx
        (reqHeaderOf c)) =
        ⟨T, firstValue c.requestHeaders b3SpanIDHeader, sampled, true⟩ := by
    have := b3Extract_valid
      (enter (resolve g serviceName [WithPropagators b3New]) service c).savedCtx
      (reqHeaderOf c) sampled
      (by rw [reqHeaderOf_get]; exact hs)
      (by rw [reqHeaderOf_get, hT]; exact hvalidT)
      (by rw [reqHeaderOf_get]; exact hvalidS)
    rw [this, reqHeaderOf_get, reqHeaderOf_get, hT]
  have hsc : (enter (resolve g serviceName [WithPropagators b3New]) service c).span.sc =
      ⟨T, g.tracerProvider.idGen.NewSpanID T, true, false⟩ := by
    rw [enter_span_sc]
    have hp : (resolve g serviceName [WithPropagators b3New]).propagators.Extract = b3Extract := rfl
    have ht : (resolve g serviceName [WithPropagators b3New]).tracer.idGen =
        g.tracerProvider.idGen := rfl
    simp only [hp, ht, hparent, SpanContext.IsValid, hvalidT, hvalidS, Bool.and_self, if_true]
  rw [values_getOtelSpanHeaders_b3 _ _ (by decide), values_b3Inject_traceID, enter_spanContext,
    hsc]
  simp [SpanContext.IsValid, hvalidT, hgen]

theorem trace_id_continuity_witness :
    (GetOtelSpanHeaders
        (enter (resolve sampleGlobals "fiber.default" [WithPropagators b3New]) "fiber.default"
          (sampleRequest b3Headers)).c).Values
      b3TraceIDHeader = ["463ac35c9f6413ad48485a3953bb6124"] :=
  trace_id_continuity sampleGlobals "fiber.default" "fiber.default" (sampleRequest b3Headers)
    "463ac35c9f6413ad48485a3953bb6124" (by decide) (by decide) (by decide) (by decide)
    (by decide)

theorem keys_getOtelSpanHeaders (c : Ctx) :
    ∀ x ∈ (GetOtelSpanHeaders c).keys,
      x ∈ b3Keys ∨ x ∈ ExtraHeaders.map CanonicalMIMEHeaderKey := by
  intro x hx
  rw [getOtelSpanHeaders_eq] at hx
  have step : ∀ (h : Header) (k : String), k ∈ ExtraHeaders →
      (∀ y ∈ h.keys, y ∈ b3Keys ∨ y ∈ ExtraHeaders.map CanonicalMIMEHeaderKey) →
      ∀ y ∈ (match Value c.UserContext k with
              | some v => h.Add k v
              | none => h).keys,
        y ∈ b3Keys ∨ y ∈ ExtraHeaders.map CanonicalMIMEHeaderKey := by
    intro h k hk ih y hy
    cases hv : Value c.UserContext k with
    | none => rw [hv] at hy; exact ih y hy
    | some v =>
      rw [hv] at hy
      rcases keys_add h k v y hy with h1 | h1
      · right; rw [h1]; exact List.mem_map_of_mem _ hk
      · exact ih y h1
  exact step _ "x-ot-span-context" (by decide)
    (step _ "x-request-id" (by decide) (fun y hy => Or.inl (keys_b3Inject _ y hy))) x hx

theorem lookup_none_of_not_key (l : List (String × List String)) (k : String)
    (hk : k ∉ l.map Prod.fst) : Header.lookup l k = none := by
  induction l with
  | nil => rfl
  | cons p rest ih =>
    obtain ⟨a, ws⟩ := p
    simp only [List.map_cons, List.mem_cons, not_or] at hk
    have hak : ¬ a = k := fun h => hk.1 h.symm
    simp [Header.lookup, hak, ih hk.2]

theorem replay_core (r : Resolved) (service : String) (c : Ctx) (k v : String)
    (hk : k ∈ ExtraHeaders) (hv : firstValue c.requestHeaders k = v) (hne : v ≠ "") :
    (GetOtelSpanHeaders (enter r service c).c).Values k = [v] := by
  have hget : (reqHeaderOf c).Get k ≠ "" := by rw [reqHeaderOf_get, hv]; exact hne
  have hval : Value (enter r service c).c.UserContext k = some v := by
    rw [enter_userContext, value_addExtraHeaders_hit _ _ _ hk hget, reqHeaderOf_get, hv]
  rw [values_getOtelSpanHeaders]
  simp only [ExtraHeaders, List.mem_cons, List.mem_singleton, List.not_mem_nil, or_false] at hk
  rcases hk with rfl | rfl
  · have hb : (b3Inject (enter r service c).c.UserContext Header.empty).Values "x-request-id"
        = [] := values_b3Inject_other _ _ (by decide)
    have hne2 : ¬ CanonicalMIMEHeaderKey "x-ot-span-context" =
        CanonicalMIMEHeaderKey "x-request-id" := by decide
    simp [hb, hval, hne2]
  · have hb : (b3Inject (enter r service c).c.UserContext Header.empty).Values
        "x-ot-span-context" = [] := values_b3Inject_other _ _ (by decide)
    have hne2 : ¬ CanonicalMIMEHeaderKey "x-request-id" =
        CanonicalMIMEHeaderKey "x-ot-span-context" := by decide
    simp [hb, hval, hne2]

theorem no_replay_core (c : Ctx) (name : String)
    (hb3 : CanonicalMIMEHeaderKey name ∉ b3Keys)
    (hallow : CanonicalMIMEHeaderKey name ∉ ExtraHeaders.map CanonicalMIMEHeaderKey) :
    CanonicalMIMEHeaderKey name ∉ (GetOtelSpanHeaders c).keys ∧
      (GetOtelSpanHeaders c).Values name = [] := by
  have hkeys : CanonicalMIMEHeaderKey name ∉ (GetOtelSpanHeaders c).keys := by
    intro h
    rcases keys_getOtelSpanHeaders c _ h with h1 | h1
    · exact hb3 h1
    · exact hallow h1
  refine ⟨hkeys, ?_⟩
  unfold Header.Values
  rw [lookup_none_of_not_key _ _ hkeys]
  rfl

/-- C2 (allow-list replay, as the code does it). An allow-listed name whose
first value on the inbound request is a non-empty `v` is on the carrier built
from the request's context during handling, with exactly the value `v`. -/
theorem extra_header_replay (r : Resolved) (service : String) (c : Ctx) (k v : String)
    (hk : k ∈ ExtraHeaders) (hv : firstValue c.requestHeaders k = v) (hne : v ≠ "") :
    (GetOtelSpanHeaders (enter r service c).c).Values k = [v] :=
  replay_core r service c k v hk hv hne

theorem extra_header_replay_witness :
    (GetOtelSpanHeaders
        (enter (resolve sampleGlobals "fiber.default" [WithPropagators b3New]) "fiber.default"
          (sampleRequest b3Headers)).c).Values RequestId = ["abc"] :=
  extra_header_replay _ "fiber.default" (sampleRequest b3Headers) RequestId "abc"
    (by decide) (by decide) (by decide)

/-- C2 as stated fails: a request carries `x-request-id` with the values `a`
and `b` and `x-ot-span-context` with an empty value; both names are
allow-listed, yet the carrier has neither `b` under the first name nor the
second name at all. -/
theorem extra_header_replay_counterexample :
    RequestId ∈ ExtraHeaders ∧ OtSpanContext ∈ ExtraHeaders ∧
    ("X-Request-Id", "b") ∈
      (sampleRequest [("X-Request-Id", "a"), ("X-Request-Id", "b"),
        ("X-Ot-Span-Context", "")]).requestHeaders ∧
    ("X-Ot-Span-Context", "") ∈
      (sampleRequest [("X-Request-Id", "a"), ("X-Request-Id", "b"),
        ("X-Ot-Span-Context", "")]).requestHeaders ∧
    "b" ∉ (GetOtelSpanHeaders
        (enter (resolve sampleGlobals "fiber.default" [WithPropagators b3New]) "fiber.default"
          (sampleRequest [("X-Request-Id", "a"), ("X-Request-Id", "b"),
            ("X-Ot-Span-Context", "")])).c).Values RequestId ∧
    CanonicalMIMEHeaderKey OtSpanContext ∉ (GetOtelSpanHeaders
        (enter (resolve sampleGlobals "fiber.default" [WithPropagators b3New]) "fiber.default"
          (sampleRequest [("X-Request-Id", "a"), ("X-Request-Id", "b"),
            ("X-Ot-Span-Context", "")])).c).keys := by
  decide

/-- C3 (allow-list isolation, as the code does it). A header name that is
neither one of the B3 names written by the injection nor an allow-listed name
never appears on the carrier built from the request's context, whatever the
inbound request carried under it. -/
theorem allow_list_isolation (r : Resolved) (service : String) (c : Ctx) (name : String)
    (hb3 : CanonicalMIMEHeaderKey name ∉ b3Keys)
    (hallow : CanonicalMIMEHeaderKey name ∉ ExtraHeaders.map CanonicalMIMEHeaderKey) :
    CanonicalMIMEHeaderKey name ∉ (GetOtelSpanHeaders (enter r service c).c).keys ∧
      (GetOtelSpanHeaders (enter r service c).c).Values name = [] :=
  no_replay_core _ name hb3 hallow

theorem allow_list_isolation_witness :
    ("X-Other", "zzz") ∈ (sampleRequest b3Headers).requestHeaders ∧
    CanonicalMIMEHeaderKey "X-Other" ∉ (GetOtelSpanHeaders
        (enter (resolve sampleGlobals "fiber.default" [WithPropagators b3New]) "fiber.default"
          (sampleRequest b3Headers)).c).keys :=
  ⟨by decide,
    (allow_list_isolation _ "fiber.default" (sampleRequest b3Headers) "X-Other"
      (by decide) (by decide)).1⟩

/-- C3 as stated fails: the inbound name `X-B3-Traceid` is not allow-listed
and is on the outbound carrier, written there by the B3 injection. -/
theorem allow_list_isolation_counterexample :
    "X-B3-Traceid" ∈ (sampleRequest b3Headers).requestHeaders.map Prod.fst ∧
    CanonicalMIMEHeaderKey "X-B3-Traceid" ∉ ExtraHeaders.map CanonicalMIMEHeaderKey ∧
    CanonicalMIMEHeaderKey "X-B3-Traceid" ∈ (GetOtelSpanHeaders
        (enter (resolve sampleGlobals "fiber.default" [WithPropagators b3New]) "fiber.default"
          (sampleRequest b3Headers)).c).keys := by
  decide

/-- C4 (the allow-list, as the code has it). `ExtraHeaders` is the request-id
header and the Lightstep span-context header and nothing else; each of the
two is passed through when its first inbound value is not empty; the three
Datadog names are declared constants that are not allow-listed and never
appear on the carrier. -/
theorem allow_list_contents (r : Resolved) (service : String) (c : Ctx) :
    ExtraHeaders = [RequestId, OtSpanContext] ∧
    (∀ k v, k = RequestId ∨ k = OtSpanContext → firstValue c.requestHeaders k = v → v ≠ "" →
      (GetOtelSpanHeaders (enter r service c).c).Values k = [v]) ∧
    (∀ k, k = DataDogTraceId ∨ k = DataDogParentId ∨ k = DataDogSamplingPriority →
      k ∉ ExtraHeaders ∧ (GetOtelSpanHeaders (enter r service c).c).Values k = []) := by
  refine ⟨rfl, ?_, ?_⟩
  · intro k v hk hv hne
    refine replay_core r service c k v ?_ hv hne
    rcases hk with rfl | rfl <;> decide
  · intro k hk
    rcases hk with rfl | rfl | rfl
    · exact ⟨by decide, (no_replay_core _ _ (by decide) (by decide)).2⟩
    · exact ⟨by decide, (no_replay_core _ _ (by decide) (by decide)).2⟩
    · exact ⟨by decide, (no_replay_core _ _ (by decide) (by decide)).2⟩

theorem allow_list_contents_witness :
    (GetOtelSpanHeaders
        (enter (resolve sampleGlobals "fiber.default" [WithPropagators b3New]) "fiber.default"
          (sampleRequest fiveHeaders)).c).Values OtSpanContext = ["o1"] ∧
    (GetOtelSpanHeaders
        (enter (resolve sampleGlobals "fiber.default" [WithPropagators b3New]) "fiber.default"
          (sampleRequest fiveHeaders)).c).Values DataDogParentId = [] :=
  ⟨(allow_list_contents _ "fiber.default" (sampleRequest fiveHeaders)).2.1 OtSpanContext "o1"
      (Or.inr rfl) (by decide) (by decide),
    ((allow_list_contents (resolve sampleGlobals "fiber.default" [WithPropagators b3New])
      "fiber.default" (sampleRequest fiveHeaders)).2.2 DataDogParentId
      (Or.inr (Or.inl rfl))).2⟩

/-- C4 as stated fails: the Datadog trace-id header is not in the allow-list,
and a request carrying all five headers gets a carrier without it. -/
theorem allow_list_contents_counterexample :
    DataDogTraceId ∉ ExtraHeaders ∧
    firstValue (sampleRequest fiveHeaders).requestHeaders DataDogTraceId = "11" ∧
    (GetOtelSpanHeaders
        (enter (resolve sampleGlobals "fiber.default" [WithPropagators b3New]) "fiber.default"
          (sampleRequest fiveHeaders)).c).Values DataDogTraceId = [] := by
  decide


theorem enter_span_fresh (r : Resolved) (service : String) (c : Ctx) :
    (enter r service c).span.endCount = 0 ∧ (enter r service c).span.errors = [] ∧
      (enter r service c).span.name = c.path ∧
      (enter r service c).span.status = (Code.Unset, "") :=
  ⟨rfl, rfl, rfl, rfl⟩

theorem middleware_error (g : Globals) (serviceName service : String)
    (opts : List MiddlewareOption) (errorHandler : ErrorHandler) (next : Handler) (c c1 : Ctx)
    (msg : String)
    (h : next (enter (resolve g serviceName opts) service c).c = (c1, Outcome.error msg)) :
    Middleware g serviceName service opts errorHandler next c =
      ⟨deferred (enter (resolve g serviceName opts) service c) (errorHandler c1 msg).1,
        { (enter (resolve g serviceName opts) service c).span with
          name := (resolve g serviceName opts).spanNameFormatter c1
          attributes := (enter (resolve g serviceName opts) service c).span.attributes
            ++ [("http.route", AttrValue.str c1.routePath)]
            ++ HTTPAttributesFromHTTPStatusCode (errorHandler c1 msg).1.responseStatusCode
          errors := [msg]
          status := SpanStatusFromHTTPStatusCodeAndSpanKind
            (errorHandler c1 msg).1.responseStatusCode SpanKind.Server
          endCount := 1 },
        Outcome.nil⟩ := by
  unfold Middleware
  simp only [h]
  simp [Span.SetName, Span.SetAttributes, Span.RecordError, Span.SetStatus, Span.End,
    enter_span_fresh]

theorem middleware_nil (g : Globals) (serviceName service : String)
    (opts : List MiddlewareOption) (errorHandler : ErrorHandler) (next : Handler) (c c1 : Ctx)
    (h : next (enter (resolve g serviceName opts) service c).c = (c1, Outcome.nil)) :
    Middleware g serviceName service opts errorHandler next c =
      ⟨deferred (enter (resolve g serviceName opts) service c) c1,
        { (enter (resolve g serviceName opts) service c).span with
          name := (resolve g serviceName opts).spanNameFormatter c1
          attributes := (enter (resolve g serviceName opts) service c).span.attributes
            ++ [("http.route", AttrValue.str c1.routePath)]
            ++ HTTPAttributesFromHTTPStatusCode c1.responseStatusCode
          status := SpanStatusFromHTTPStatusCodeAndSpanKind c1.responseStatusCode SpanKind.Server
          endCount := 1 },
        Outcome.nil⟩ := by
  unfold Middleware
  simp only [h]
  simp [Span.SetName, Span.SetAttributes, Span.SetStatus, Span.End, enter_span_fresh]

theorem middleware_panic (g : Globals) (serviceName service : String)
    (opts : List MiddlewareOption) (errorHandler : ErrorHandler) (next : Handler) (c c1 : Ctx)
    (v : String)
    (h : next (enter (resolve g serviceName opts) service c).c = (c1, Outcome.panic v)) :
    Middleware g serviceName service opts errorHandler next c =
      ⟨deferred (enter (resolve g serviceName opts) service c) c1,
        { (enter (resolve g serviceName opts) service c).span with endCount := 1 },
        Outcome.panic v⟩ := by
  unfold Middleware
  simp only [h]
  simp [Span.End, enter_span_fresh]

theorem middleware_exit (g : Globals) (serviceName service : String)
    (opts : List MiddlewareOption) (errorHandler : ErrorHandler) (next : Handler) (c : Ctx) :
    (Middleware g serviceName service opts errorHandler next c).span.endCount = 1 ∧
    (Middleware g serviceName service opts errorHandler next c).c =
      deferred (enter (resolve g serviceName opts) service c)
        (stateAtExit errorHandler next (enter (resolve g serviceName opts) service c)) := by
  unfold stateAtExit
  rcases hn : next (enter (resolve g serviceName opts) service c).c with ⟨c1, out⟩
  cases out with
  | nil => rw [middleware_nil _ _ _ _ _ _ _ _ hn]; exact ⟨rfl, rfl⟩
  | error msg => rw [middleware_error _ _ _ _ _ _ _ _ _ hn]; exact ⟨rfl, rfl⟩
  | panic v => rw [middleware_panic _ _ _ _ _ _ _ _ _ hn]; exact ⟨rfl, rfl⟩

/-- C5 (handler error: two effects). When the rest of the chain returns the
error `msg`, the middleware records `msg` on the span once (the span's
recorded errors are exactly `[msg]`) and calls the application's
`ErrorHandler` once, on the request as the chain left it and with `msg`: the
request the deferred block then finishes is the one that call returned. When
the chain returns nil the span records nothing and the request goes to the
deferred block as the chain left it, whatever the `ErrorHandler` is. -/
theorem error_recorded_and_forwarded (g : Globals) (serviceName service : String)
    (opts : List MiddlewareOption) (errorHandler : ErrorHandler) (next : Handler) (c : Ctx) :
    (∀ msg, (next (enter (resolve g serviceName opts) service c).c).2 = Outcome.error msg →
      (Middleware g serviceName service opts errorHandler next c).span.errors = [msg] ∧
      (Middleware g serviceName service opts errorHandler next c).c =
        deferred (enter (resolve g serviceName opts) service c)
          (errorHandler (next (enter (resolve g serviceName opts) service c).c).1 msg).1) ∧
    ((next (enter (resolve g serviceName opts) service c).c).2 = Outcome.nil →
      (Middleware g serviceName service opts errorHandler next c).span.errors = [] ∧
      (Middleware g serviceName service opts errorHandler next c).c =
        deferred (enter (resolve g serviceName opts) service c)
          (next (enter (resolve g serviceName opts) service c).c).1) := by
  constructor
  · intro msg h
    have hn : next (enter (resolve g serviceName opts) service c).c =
        ((next (enter (resolve g serviceName opts) service c).c).1, Outcome.error msg) :=
      Prod.ext rfl h
    rw [middleware_error _ _ _ _ _ _ _ _ _ hn]
    exact ⟨rfl, rfl⟩
  · intro h
    have hn : next (enter (resolve g serviceName opts) service c).c =
        ((next (enter (resolve g serviceName opts) service c).c).1, Outcome.nil) :=
      Prod.ext rfl h
    rw [middleware_nil _ _ _ _ _ _ _ _ hn]
    exact ⟨rfl, rfl⟩

theorem error_recorded_and_forwarded_witness :
    (Middleware sampleGlobals "fiber.default" "fiber.default" [WithPropagators b3New]
      serverErrorHandler failingHandler (sampleRequest b3Headers)).span.errors = ["boom"] ∧
    (Middleware sampleGlobals "fiber.default" "fiber.default" [WithPropagators b3New]
      serverErrorHandler failingHandler (sampleRequest b3Headers)).c.responseBody = "boom" ∧
    (Middleware sampleGlobals "fiber.default" "fiber.default" [WithPropagators b3New]
      serverErrorHandler okHandler (sampleRequest b3Headers)).c.responseBody = "" :=
  ⟨((error_recorded_and_forwarded sampleGlobals "fiber.default" "fiber.default"
      [WithPropagators b3New] serverErrorHandler failingHandler (sampleRequest b3Headers)).1
      "boom" (by decide)).1,
    (congrArg Ctx.responseBody
      ((error_recorded_and_forwarded sampleGlobals "fiber.default" "fiber.default"
        [WithPropagators b3New] serverErrorHandler failingHandler (sampleRequest b3Headers)).1
        "boom" (by decide)).2).trans (by decide),
    (congrArg Ctx.responseBody
      ((error_recorded_and_forwarded sampleGlobals "fiber.default" "fiber.default"
        [WithPropagators b3New] serverErrorHandler okHandler (sampleRequest b3Headers)).2
        (by decide)).2).trans (by decide)⟩

/-- C6 (span closed once, status from the response). The span is ended
exactly once whether the rest of the chain returns nil, returns an error or
panics. When it returns the error `msg`, `msg` is recorded on the span and
the final status is the one mapped from the response status code the
`ErrorHandler` left: ERROR when that code is 500. -/
theorem span_ended_once (g : Globals) (serviceName service : String)
    (opts : List MiddlewareOption) (errorHandler : ErrorHandler) (next : Handler) (c : Ctx) :
    (Middleware g serviceName service opts errorHandler next c).span.endCount = 1 ∧
    (∀ msg, (next (enter (resolve g serviceName opts) service c).c).2 = Outcome.error msg →
      (Middleware g serviceName service opts errorHandler next c).span.errors = [msg] ∧
      (Middleware g serviceName service opts errorHandler next c).span.status =
        SpanStatusFromHTTPStatusCodeAndSpanKind
          (errorHandler (next (enter (resolve g serviceName opts) service c).c).1
            msg).1.responseStatusCode SpanKind.Server ∧
      ((errorHandler (next (enter (resolve g serviceName opts) service c).c).1
            msg).1.responseStatusCode = 500 →
        (Middleware g serviceName service opts errorHandler next c).span.status.1 =
          Code.Error)) := by
  refine ⟨(middleware_exit g serviceName service opts errorHandler next c).1, ?_⟩
  intro msg h
  have hn : next (enter (resolve g serviceName opts) service c).c =
      ((next (enter (resolve g serviceName opts) service c).c).1, Outcome.error msg) :=
    Prod.ext rfl h
  rw [middleware_error _ _ _ _ _ _ _ _ _ hn]
  refine ⟨rfl, rfl, ?_⟩
  intro h500
  simp only [h500]
  rfl

theorem span_ended_once_witness :
    (Middleware sampleGlobals "fiber.default" "fiber.default" [WithPropagators b3New]
      serverErrorHandler failingHandler (sampleRequest b3Headers)).span.endCount = 1 ∧
    (Middleware sampleGlobals "fiber.default" "fiber.default" [WithPropagators b3New]
      serverErrorHandler failingHandler (sampleRequest b3Headers)).span.status.1 = Code.Error :=
  ⟨(span_ended_once sampleGlobals "fiber.default" "fiber.default" [WithPropagators b3New]
      serverErrorHandler failingHandler (sampleRequest b3Headers)).1,
    ((span_ended_once sampleGlobals "fiber.default" "fiber.default" [WithPropagators b3New]
      serverErrorHandler failingHandler (sampleRequest b3Headers)).2 "boom" (by decide)).2.2
      (by decide)⟩

/-- C6 as stated fails: the rest of the chain returns an error, the
application's `ErrorHandler` leaves the response status at 200, and the span,
ended once with the error recorded, does not end with the status ERROR. -/
theorem span_ended_once_counterexample :
    (failingHandler (enter (resolve sampleGlobals "fiber.default" [WithPropagators b3New])
      "fiber.default" (sampleRequest b3Headers)).c).2 = Outcome.error "boom" ∧
    (Middleware sampleGlobals "fiber.default" "fiber.default" [WithPropagators b3New]
      quietErrorHandler failingHandler (sampleRequest b3Headers)).span.endCount = 1 ∧
    (Middleware sampleGlobals "fiber.default" "fiber.default" [WithPropagators b3New]
      quietErrorHandler failingHandler (sampleRequest b3Headers)).span.errors = ["boom"] ∧
    (Middleware sampleGlobals "fiber.default" "fiber.default" [WithPropagators b3New]
      quietErrorHandler failingHandler (sampleRequest b3Headers)).span.status.1 ≠ Code.Error := by
  decide

/-- C7 (status mapping at finalization). When the middleware returns
normally, the span status it set is the one
`SpanStatusFromHTTPStatusCodeAndSpanKind` gives for the response status code
and the server kind: ERROR with a non-empty message for 500, OK for 200. -/
theorem status_mapping (g : Globals) (serviceName service : String)
    (opts : List MiddlewareOption) (errorHandler : ErrorHandler) (next : Handler) (c : Ctx)
    (hret : (Middleware g serviceName service opts errorHandler next c).ret = Outcome.nil) :
    (Middleware g serviceName service opts errorHandler next c).span.status =
      SpanStatusFromHTTPStatusCodeAndSpanKind
        (Middleware g serviceName service opts errorHandler next c).c.responseStatusCode
        SpanKind.Server ∧
    ((Middleware g serviceName service opts errorHandler next c).c.responseStatusCode = 500 →
      (Middleware g serviceName service opts errorHandler next c).span.status.1 = Code.Error ∧
      (Middleware g serviceName service opts errorHandler next c).span.status.2 ≠ "") ∧
    ((Middleware g serviceName service opts errorHandler next c).c.responseStatusCode = 200 →
      (Middleware g serviceName service opts errorHandler next c).span.status.1 = Code.Ok) := by
  have hst : (Middleware g serviceName service opts errorHandler next c).span.status =
      SpanStatusFromHTTPStatusCodeAndSpanKind
        (Middleware g serviceName service opts errorHandler next c).c.responseStatusCode
        SpanKind.Server := by
    rcases hn : next (enter (resolve g serviceName opts) service c).c with ⟨c1, out⟩
    cases out with
    | nil => rw [middleware_nil _ _ _ _ _ _ _ _ hn]; rfl
    | error msg => rw [middleware_error _ _ _ _ _ _ _ _ _ hn]; rfl
    | panic v =>
      rw [middleware_panic _ _ _ _ _ _ _ _ _ hn] at hret
      exact absurd hret (by simp)
  refine ⟨hst, ?_, ?_⟩
  · intro h500
    rw [hst, h500]
    exact ⟨rfl, by decide⟩
  · intro h200
    rw [hst, h200]
    rfl

theorem status_mapping_witness :
    (Middleware sampleGlobals "fiber.default" "fiber.default" [WithPropagators b3New]
      serverErrorHandler failingHandler (sampleRequest b3Headers)).span.status =
        (Code.Error, "server error") ∧
    (Middleware sampleGlobals "fiber.default" "fiber.default" [WithPropagators b3New]
      serverErrorHandler okHandler (sampleRequest b3Headers)).span.status.1 = Code.Ok :=
  ⟨((status_mapping sampleGlobals "fiber.default" "fiber.default" [WithPropagators b3New]
      serverErrorHandler failingHandler (sampleRequest b3Headers) (by decide)).1).trans
      (by decide),
    (status_mapping sampleGlobals "fiber.default" "fiber.default" [WithPropagators b3New]
      serverErrorHandler okHandler (sampleRequest b3Headers) (by decide)).2.2 (by decide)⟩

theorem b3ParseSampled_flag (b : Bool) :
    b3ParseSampled (if b then "1" else "0") = some b := by
  cases b <;> decide

theorem get_getOtelSpanHeaders_valid (c : Ctx)
    (hvalid : (SpanContextFromContext c.UserContext).IsValid = true) :
    (GetOtelSpanHeaders c).Get b3TraceIDHeader = (SpanContextFromContext c.UserContext).traceID ∧
    (GetOtelSpanHeaders c).Get b3SpanIDHeader = (SpanContextFromContext c.UserContext).spanID ∧
    (GetOtelSpanHeaders c).Get b3SampledHeader =
      (if (SpanContextFromContext c.UserContext).sampled then "1" else "0") := by
  unfold Header.Get
  rw [values_getOtelSpanHeaders_b3 _ _ (by decide), values_getOtelSpanHeaders_b3 _ _ (by decide),
    values_getOtelSpanHeaders_b3 _ _ (by decide), values_b3Inject_traceID, values_b3Inject_spanID,
    values_b3Inject_sampled]
  simp [hvalid]

/-- C8 (symmetry under the B3 configuration). When the middleware is
configured with the B3 propagator, as `main` does, and the request's span
context is valid, the configured extraction reads back from the carrier of
`GetOtelSpanHeaders` the trace id, span id and sampling flag of that span
context, marked remote. -/
theorem b3_extract_inject_symmetric (g : Globals) (serviceName service : String) (c : Ctx)
    (base : Context)
    (hvalid : (enter (resolve g serviceName [WithPropagators b3New]) service c).span.sc.IsValid
      = true) :
    SpanContextFromContext
      ((resolve g serviceName [WithPropagators b3New]).propagators.Extract base
        (GetOtelSpanHeaders (enter (resolve g serviceName [WithPropagators b3New]) service c).c))
      = { (enter (resolve g serviceName [WithPropagators b3New]) service c).span.sc with
          remote := true } := by
  have hp : (resolve g serviceName [WithPropagators b3New]).propagators.Extract = b3Extract := rfl
  have hv : (SpanContextFromContext
      (enter (resolve g serviceName [WithPropagators b3New]) service c).c.UserContext).IsValid
        = true := by
    rw [enter_spanContext]; exact hvalid
  obtain ⟨h1, h2, h3⟩ := get_getOtelSpanHeaders_valid _ hv
  have hv2 := hv
  unfold SpanContext.IsValid at hv2
  rw [Bool.and_eq_true] at hv2
  rw [hp, b3Extract_valid base _
    (SpanContextFromContext
      (enter (resolve g serviceName [WithPropagators b3New]) service c).c.UserContext).sampled
    (by rw [h3]; exact b3ParseSampled_flag _) (by rw [h1]; exact hv2.1) (by rw [h2]; exact hv2.2),
    h1, h2, enter_spanContext]

theorem b3_extract_inject_symmetric_witness :
    SpanContextFromContext
      ((resolve sampleGlobals "fiber.default" [WithPropagators b3New]).propagators.Extract []
        (GetOtelSpanHeaders (enter (resolve sampleGlobals "fiber.default"
          [WithPropagators b3New]) "fiber.default" (sampleRequest b3Headers)).c))
      = ⟨"463ac35c9f6413ad48485a3953bb6124", "00f067aa0ba902b7", true, true⟩ :=
  (b3_extract_inject_symmetric sampleGlobals "fiber.default" "fiber.default"
    (sampleRequest b3Headers) [] (by decide)).trans (by decide)

/-- C8 as stated fails: with no propagator option the middleware extracts with
the process-wide propagator registered by `InitializeGlobalTracer`. A request
inside a W3C trace gets a valid span with the inbound trace id; the carrier
holds that id under the B3 name and has no `traceparent` header, and the
configured extraction reads no span context back from it. -/
theorem b3_extract_inject_symmetric_counterexample :
    (enter (resolve sampleGlobals "fiber.default" []) "fiber.default"
      (sampleRequest w3cHeaders)).span.sc =
        ⟨"463ac35c9f6413ad48485a3953bb6124", "00f067aa0ba902b7", true, false⟩ ∧
    (GetOtelSpanHeaders (enter (resolve sampleGlobals "fiber.default" []) "fiber.default"
      (sampleRequest w3cHeaders)).c).Values b3TraceIDHeader =
        ["463ac35c9f6413ad48485a3953bb6124"] ∧
    (GetOtelSpanHeaders (enter (resolve sampleGlobals "fiber.default" []) "fiber.default"
      (sampleRequest w3cHeaders)).c).Values traceparentHeader = [] ∧
    SpanContextFromContext
      ((resolve sampleGlobals "fiber.default" []).propagators.Extract []
        (GetOtelSpanHeaders (enter (resolve sampleGlobals "fiber.default" []) "fiber.default"
          (sampleRequest w3cHeaders)).c)) = SpanContext.zero := by
  decide

/-- C9 (span naming, as the code does it). At span start the span is named
with the raw path `c.Path()`; when the rest of the chain has returned, with
nil or with an error, the name is the result of the configured
`SpanNameFormatter` on the request and the route template `c.Route().Path`
is recorded as the HTTP route attribute; without a formatter option the name
is that route template. -/
theorem span_naming (g : Globals) (serviceName service : String)
    (opts : List MiddlewareOption) (errorHandler : ErrorHandler) (next : Handler) (c : Ctx)
    (hret : (Middleware g serviceName service opts errorHandler next c).ret = Outcome.nil) :
    (enter (resolve g serviceName opts) service c).span.name = c.path ∧
    (Middleware g serviceName service opts errorHandler next c).span.name =
      (resolve g serviceName opts).spanNameFormatter
        (next (enter (resolve g serviceName opts) service c).c).1 ∧
    ("http.route",
        AttrValue.str (next (enter (resolve g serviceName opts) service c).c).1.routePath) ∈
      (Middleware g serviceName service opts errorHandler next c).span.attributes ∧
    (∀ c1, (resolve g serviceName []).spanNameFormatter c1 = c1.routePath) ∧
    (∀ p c1, (resolve g serviceName [WithPropagators p]).spanNameFormatter c1 = c1.routePath) := by
  refine ⟨rfl, ?_, ?_, fun _ => rfl, fun _ _ => rfl⟩
  · rcases hn : next (enter (resolve g serviceName opts) service c).c with ⟨c1, out⟩
    cases out with
    | nil => rw [middleware_nil _ _ _ _ _ _ _ _ hn]
    | error msg => rw [middleware_error _ _ _ _ _ _ _ _ _ hn]
    | panic v =>
      rw [middleware_panic _ _ _ _ _ _ _ _ _ hn] at hret
      exact absurd hret (by simp)
  · rcases hn : next (enter (resolve g serviceName opts) service c).c with ⟨c1, out⟩
    cases out with
    | nil => rw [middleware_nil _ _ _ _ _ _ _ _ hn]; simp
    | error msg => rw [middleware_error _ _ _ _ _ _ _ _ _ hn]; simp
    | panic v =>
      rw [middleware_panic _ _ _ _ _ _ _ _ _ hn] at hret
      exact absurd hret (by simp)

theorem span_naming_witness :
    (enter (resolve sampleGlobals "fiber.default" [WithPropagators b3New]) "fiber.default"
      (sampleRequest b3Headers)).span.name = "/users/42" ∧
    (Middleware sampleGlobals "fiber.default" "fiber.default" [WithPropagators b3New]
      serverErrorHandler failingHandler (sampleRequest b3Headers)).span.name = "/users/:id" :=
  ⟨(span_naming sampleGlobals "fiber.default" "fiber.default" [WithPropagators b3New]
      serverErrorHandler failingHandler (sampleRequest b3Headers) (by decide)).1,
    ((span_naming sampleGlobals "fiber.default" "fiber.default" [WithPropagators b3New]
      serverErrorHandler failingHandler (sampleRequest b3Headers) (by decide)).2.1).trans
      (by decide)⟩

/-- C9 as stated fails: the route template of the request is known
(`/users/:id`), and the span is started under the raw path `/users/42`. -/
theorem span_naming_counterexample :
    (sampleRequest b3Headers).routePath = "/users/:id" ∧
    specInitialSpanName (sampleRequest b3Headers) = "/users/:id" ∧
    (enter (resolve sampleGlobals "fiber.default" [WithPropagators b3New]) "fiber.default"
      (sampleRequest b3Headers)).span.name ≠ specInitialSpanName (sampleRequest b3Headers) := by
  decide

theorem carrier_of_saved_context (c : Ctx) (id : Nat)
    (huc : c.userContext = WithCancel id c.Context) :
    (GetOtelSpanHeaders c).Values b3TraceIDHeader = [] ∧
    ∀ k ∈ ExtraHeaders, (GetOtelSpanHeaders c).Values k = (c.requestValue k).toList := by
  have hsc : SpanContextFromContext c.UserContext = SpanContext.zero := by
    unfold Ctx.UserContext
    rw [spanContext_observe, huc]
    rfl
  have hval : ∀ k, Value c.UserContext k = c.requestValue k := by
    intro k
    unfold Ctx.UserContext Ctx.requestValue
    rw [huc]
    rfl
  constructor
  · rw [values_getOtelSpanHeaders_b3 _ _ (by decide), values_b3Inject_traceID, hsc]
    rfl
  · intro k hk
    rw [values_getOtelSpanHeaders, hval, hval]
    have hb : (b3Inject c.UserContext Header.empty).Values k = [] := by
      apply values_b3Inject_other
      simp only [ExtraHeaders, List.mem_cons, List.mem_singleton, List.not_mem_nil,
        or_false] at hk
      rcases hk with rfl | rfl <;> decide
    simp only [ExtraHeaders, List.mem_cons, List.mem_singleton, List.not_mem_nil,
      or_false] at hk
    have hne : ¬ CanonicalMIMEHeaderKey "x-request-id" =
        CanonicalMIMEHeaderKey "x-ot-span-context" := by decide
    have hne2 : ¬ CanonicalMIMEHeaderKey "x-ot-span-context" =
        CanonicalMIMEHeaderKey "x-request-id" := by decide
    rcases hk with rfl | rfl
    · simp [hb, hne2]
    · simp [hb, hne]

/-- C10 (the deferred block, as the code does it). On every exit of the
middleware handler, by return or by a panic of the rest of the chain, the
deferred block ran once on the request as it was at exit: the user context is
`savedCtx`, the cancellable child of the request context `c.Context()` made
before the extraction, its cancel function was called once, and the user
context is cancelled. The carrier `GetOtelSpanHeaders` builds afterwards has
no trace-id header, and under each allow-listed name it has exactly the value
the request context itself holds under that name at that time, none when
there is none, whatever headers the inbound request carried. -/
theorem deferred_restore (g : Globals) (serviceName service : String)
    (opts : List MiddlewareOption) (errorHandler : ErrorHandler) (next : Handler) (c : Ctx) :
    (Middleware g serviceName service opts errorHandler next c).c =
      deferred (enter (resolve g serviceName opts) service c)
        (stateAtExit errorHandler next (enter (resolve g serviceName opts) service c)) ∧
    (enter (resolve g serviceName opts) service c).savedCtx =
      WithCancel c.cancelSeq c.Context ∧
    (Middleware g serviceName service opts errorHandler next c).c.userContext =
      (enter (resolve g serviceName opts) service c).savedCtx ∧
    (Middleware g serviceName service opts errorHandler next c).c.cancelled =
      c.cancelSeq ::
        (stateAtExit errorHandler next
          (enter (resolve g serviceName opts) service c)).cancelled ∧
    Err (Middleware g serviceName service opts errorHandler next c).c.cancelled
      (Middleware g serviceName service opts errorHandler next c).c.userContext =
        some "context canceled" ∧
    (GetOtelSpanHeaders (Middleware g serviceName service opts errorHandler next c).c).Values
      b3TraceIDHeader = [] ∧
    ∀ k ∈ ExtraHeaders,
      (GetOtelSpanHeaders (Middleware g serviceName service opts errorHandler next c).c).Values k
        = ((Middleware g serviceName service opts errorHandler next c).c.requestValue k).toList
    := by
  have hexit := (middleware_exit g serviceName service opts errorHandler next c).2
  have huc : (Middleware g serviceName service opts errorHandler next c).c.userContext =
      WithCancel c.cancelSeq
        (Middleware g serviceName service opts errorHandler next c).c.Context := by
    rw [hexit]; rfl
  have hcan : (Middleware g serviceName service opts errorHandler next c).c.cancelled =
      c.cancelSeq ::
        (stateAtExit errorHandler next
          (enter (resolve g serviceName opts) service c)).cancelled := by
    rw [hexit]; rfl
  refine ⟨hexit, rfl, by rw [hexit]; rfl, hcan, ?_, ?_⟩
  · rw [huc, hcan]
    simp [WithCancel, Err]
  · exact carrier_of_saved_context _ c.cancelSeq huc

theorem deferred_restore_witness :
    (GetOtelSpanHeaders
        (enter (resolve sampleGlobals "fiber.default" [WithPropagators b3New]) "fiber.default"
          (sampleRequest b3Headers)).c).Values RequestId = ["abc"] ∧
    (GetOtelSpanHeaders (Middleware sampleGlobals "fiber.default" "fiber.default"
      [WithPropagators b3New] serverErrorHandler failingHandler
      (sampleRequest b3Headers)).c).Values b3TraceIDHeader = [] ∧
    (GetOtelSpanHeaders (Middleware sampleGlobals "fiber.default" "fiber.default"
      [WithPropagators b3New] serverErrorHandler failingHandler
      (sampleRequest b3Headers)).c).Values RequestId = [] :=
  ⟨by decide,
    (deferred_restore sampleGlobals "fiber.default" "fiber.default" [WithPropagators b3New]
      serverErrorHandler failingHandler (sampleRequest b3Headers)).2.2.2.2.2.1,
    ((deferred_restore sampleGlobals "fiber.default" "fiber.default" [WithPropagators b3New]
      serverErrorHandler failingHandler (sampleRequest b3Headers)).2.2.2.2.2.2 RequestId
      (by decide)).trans (by decide)⟩

/-- C10 as stated fails: the rest of the chain stores a value under the
allow-listed key `x-request-id` on the request context and succeeds; the
inbound request carried `X-Request-Id: abc`. After the middleware is done the
user context is `savedCtx`, and the carrier holds the allow-listed header
`X-Request-Id` with the stored value. -/
theorem deferred_restore_counterexample :
    RequestId ∈ ExtraHeaders ∧
    (Middleware sampleGlobals "fiber.default" "fiber.default" [WithPropagators b3New]
      serverErrorHandler storingHandler (sampleRequest b3Headers)).ret = Outcome.nil ∧
    (Middleware sampleGlobals "fiber.default" "fiber.default" [WithPropagators b3New]
      serverErrorHandler storingHandler (sampleRequest b3Headers)).c.userContext =
        (enter (resolve sampleGlobals "fiber.default" [WithPropagators b3New]) "fiber.default"
          (sampleRequest b3Headers)).savedCtx ∧
    (GetOtelSpanHeaders (Middleware sampleGlobals "fiber.default" "fiber.default"
      [WithPropagators b3New] serverErrorHandler storingHandler
      (sampleRequest b3Headers)).c).Values RequestId = ["late"] := by
  decide

end Otelfiber
